import Mathlib

/-!
Shallow embedding of the Bitcoin script type system of `src/bp/scripts.rs`
(rust-lnpbp): typed script wrappers, the pattern classification layer
(`PubkeyScriptType`, `PubkeyScriptSource`), canonical script generation, and
the public-key extraction/substitution algorithms on `LockScript`.

Machine bytes are modelled as `List Nat`; secp256k1 public keys are opaque
values modelled as `Nat`; `bitcoin::PublicKey` is a compressed-flag plus key.
External collaborators (the `wrapper!` macro of the crate root, the
rust-bitcoin `Builder` templates, the miniscript policy-AST parser/encoder
and the hash functions) are not under `src/`; their definitions below are
marked `Modelled from the spec:` and follow the specification text.
-/

/-- A raw Bitcoin script: an opaque ordered sequence of bytes. -/
abbrev Script : Type := List Nat

/-- Modelled from the spec: the elliptic-curve public-key type of the
cryptography collaborator (`secp256k1::PublicKey`), opaque with byte-exact
equality. -/
abbrev Secp256k1PublicKey : Type := Nat

/-- Modelled from the spec: `bitcoin::PublicKey`, a secp256k1 key together
with its serialization flag (compressed or uncompressed). -/
structure BitcoinPublicKey where
  compressed : Bool
  key : Secp256k1PublicKey
deriving DecidableEq

/-- Modelled from the spec: the `wrapper!`-generated newtype `LockScript`
(the macro lives in the crate root, outside `src/bp/scripts.rs`): a zero-cost
wrapper exclusively owning one `Script`, with `from_inner`/`into_inner` as
the only tag-crossing operations. -/
structure LockScript where
  intoInner : Script
deriving DecidableEq

/-- Constructor of the `LockScript` wrapper (`from_inner`). -/
def LockScript.fromInner (script : Script) : LockScript := LockScript.mk script

/-- Modelled from the spec: the `wrapper!`-generated newtype `PubkeyScript`. -/
structure PubkeyScript where
  intoInner : Script
deriving DecidableEq

/-- Constructor of the `PubkeyScript` wrapper (`from_inner`). -/
def PubkeyScript.fromInner (script : Script) : PubkeyScript := PubkeyScript.mk script

/-- Modelled from the spec: the `wrapper!`-generated newtype `SigScript`. -/
structure SigScript where
  intoInner : Script
deriving DecidableEq

/-- Constructor of the `SigScript` wrapper (`from_inner`). -/
def SigScript.fromInner (script : Script) : SigScript := SigScript.mk script

/-- Modelled from the spec: the `wrapper!`-generated newtype `WitnessScript`. -/
structure WitnessScript where
  intoInner : Script
deriving DecidableEq

/-- Constructor of the `WitnessScript` wrapper (`from_inner`). -/
def WitnessScript.fromInner (script : Script) : WitnessScript := WitnessScript.mk script

/-- Modelled from the spec: the `wrapper!`-generated newtype `RedeemScript`. -/
structure RedeemScript where
  intoInner : Script
deriving DecidableEq

/-- Constructor of the `RedeemScript` wrapper (`from_inner`). -/
def RedeemScript.fromInner (script : Script) : RedeemScript := RedeemScript.mk script

/-- Modelled from the spec: the `wrapper!`-generated newtype `TapScript`. -/
structure TapScript where
  intoInner : Script
deriving DecidableEq

/-- Constructor of the `TapScript` wrapper (`from_inner`). -/
def TapScript.fromInner (script : Script) : TapScript := TapScript.mk script

/-- The tagged union `PubkeyScriptType` from `src/bp/scripts.rs`: an output
locking script classified by on-chain pattern. Hash commitments
(`PubkeyHash`, `ScriptHash`, `WPubkeyHash`, `WScriptHash`) are opaque hash
values modelled as `Nat`. -/
inductive PubkeyScriptType where
  | p2s (script : PubkeyScript)
  | p2pk (pubkey : BitcoinPublicKey)
  | p2pkh (pubkeyHash : Nat)
  | p2sh (scriptHash : Nat)
  | p2or (data : List Nat)
  | p2wpkh (wpubkeyHash : Nat)
  | p2wsh (wscriptHash : Nat)
  | p2tr (pubkey : Secp256k1PublicKey)
deriving DecidableEq

/-- The tagged union `PubkeyScriptSource` from `src/bp/scripts.rs`: the same
classification as `PubkeyScriptType` but carrying resolved nested content
instead of hashes. -/
inductive PubkeyScriptSource where
  | p2s (lockScript : LockScript)
  | p2pk (pubkey : BitcoinPublicKey)
  | p2pkh (pubkey : BitcoinPublicKey)
  | p2sh (lockScript : LockScript)
  | p2or (data : List Nat)
  | p2wpkh (lockScript : LockScript)
  | p2wsh (lockScript : LockScript)
  | p2tr (pubkey : BitcoinPublicKey) (tapScript : TapScript)
deriving DecidableEq

/-- The conversion `impl From<Script> for PubkeyScriptType` of
`src/bp/scripts.rs` (lines 163 to 167): the body is exactly
`Self::P2S(PubkeyScript::from_inner(script_pubkey))`, a total function that
wraps the incoming bytes in the fallback `P2S` variant unconditionally. -/
def pubkeyScriptTypeFromScript (scriptPubkey : Script) : PubkeyScriptType :=
  PubkeyScriptType.p2s (PubkeyScript.fromInner scriptPubkey)

/-- Big-endian fixed-width byte rendering of an opaque hash or key value,
used by the modelled builder templates. -/
def natToBytesBE : Nat → Nat → List Nat
  | 0, _ => []
  | len + 1, n => natToBytesBE len (n / 256) ++ [n % 256]

/-- Modelled from the spec: the external builder template `gen_p2pk`
(push of the serialized key followed by `OP_CHECKSIG`). -/
def genP2pk (pubkey : BitcoinPublicKey) : Script :=
  (if pubkey.compressed then 33 :: natToBytesBE 33 pubkey.key
   else 65 :: natToBytesBE 65 pubkey.key) ++ [0xac]

/-- Modelled from the spec: the external builder template `gen_p2pkh`
(`OP_DUP OP_HASH160 push20 OP_EQUALVERIFY OP_CHECKSIG`). -/
def genP2pkh (pubkeyHash : Nat) : Script :=
  [0x76, 0xa9, 0x14] ++ natToBytesBE 20 pubkeyHash ++ [0x88, 0xac]

/-- Modelled from the spec: the external builder template `gen_p2sh`
(`OP_HASH160 push20 OP_EQUAL`). -/
def genP2sh (scriptHash : Nat) : Script :=
  [0xa9, 0x14] ++ natToBytesBE 20 scriptHash ++ [0x87]

/-- Modelled from the spec: the external builder template `gen_op_return`
(`OP_RETURN` followed by the pushed data). -/
def genOpReturn (data : List Nat) : Script :=
  [0x6a, data.length] ++ data

/-- Modelled from the spec: the external builder template `gen_v0_p2wpkh`
(witness version 0, 20-byte program). -/
def genV0P2wpkh (wpubkeyHash : Nat) : Script :=
  [0x00, 0x14] ++ natToBytesBE 20 wpubkeyHash

/-- Modelled from the spec: the external builder template `gen_v0_p2wsh`
(witness version 0, 32-byte program). -/
def genV0P2wsh (wscriptHash : Nat) : Script :=
  [0x00, 0x20] ++ natToBytesBE 32 wscriptHash

/-- Outcome of the conversion `impl From<PubkeyScriptType> for PubkeyScript`:
either a generated script, or the explicit failure of the taproot arm, whose
body in the source is the `unimplemented!()` panic macro (it aborts with a
"not implemented" report and never yields bytes). -/
inductive GenResult where
  | ok (script : PubkeyScript)
  | unimplementedFailure
deriving DecidableEq

/-- The conversion `impl From<PubkeyScriptType> for PubkeyScript` of
`src/bp/scripts.rs` (lines 169 to 185): each variant other than the custom
fallback expands its fixed builder template; the `P2TR` arm is
`unimplemented!()`, modelled as the explicit failure outcome. -/
def pubkeyScriptFromType (spkt : PubkeyScriptType) : GenResult :=
  match spkt with
  | PubkeyScriptType.p2s script => GenResult.ok (PubkeyScript.fromInner script.intoInner)
  | PubkeyScriptType.p2pk pubkey => GenResult.ok (PubkeyScript.fromInner (genP2pk pubkey))
  | PubkeyScriptType.p2pkh pubkeyHash => GenResult.ok (PubkeyScript.fromInner (genP2pkh pubkeyHash))
  | PubkeyScriptType.p2sh scriptHash => GenResult.ok (PubkeyScript.fromInner (genP2sh scriptHash))
  | PubkeyScriptType.p2or data => GenResult.ok (PubkeyScript.fromInner (genOpReturn data))
  | PubkeyScriptType.p2wpkh wpubkeyHash => GenResult.ok (PubkeyScript.fromInner (genV0P2wpkh wpubkeyHash))
  | PubkeyScriptType.p2wsh wscriptHash => GenResult.ok (PubkeyScript.fromInner (genV0P2wsh wscriptHash))
  | PubkeyScriptType.p2tr _ => GenResult.unimplementedFailure

/-- Modelled from the spec: the hash-mismatch failure of the resolution
steps of section 4.2 (the resolution functions themselves are absent from
`src/`; only the `PubkeyScriptSource` declaration is present). -/
inductive ResolutionError where
  | hashMismatch
deriving DecidableEq

/-- Modelled from the spec: the hash-verified resolution constructor of
sections 4.2 and 9 (absent from `src/`), parameterized by the collaborator
hash function: it recomputes the hash of the supplied candidate pre-image
and succeeds, returning the candidate itself, exactly when the hash equals
the carried commitment; otherwise it fails with a hash mismatch. -/
def resolveHash {A B : Type} [DecidableEq B] (hashFn : A → B) (commitment : B)
    (candidate : A) : Except ResolutionError A :=
  if hashFn candidate = commitment then Except.ok candidate
  else Except.error ResolutionError.hashMismatch

/-- The leaf classification `miniscript::iter::PubkeyOrHash` used by
`extract_pubkeys` and `replace_pubkeys`: a key-bearing leaf of a parsed
policy-expression tree is either a plain public key or a public-key hash. -/
inductive PubkeyOrHash where
  | plainPubkey (pubkey : BitcoinPublicKey)
  | hashedPubkey (hash : Nat)
deriving DecidableEq

/-- Modelled from the spec: the policy-expression tree of the external
miniscript collaborator (section 6): plain-key leaves, hashed-key leaves, a
k-of-n multisignature over keys, binary combinators and a key-free timelock
leaf, enough structure for depth-first traversal and leaf substitution. -/
inductive Miniscript where
  | pk (pubkey : BitcoinPublicKey)
  | pkh (hash : Nat)
  | multi (k : Nat) (keys : List BitcoinPublicKey)
  | andB (left : Miniscript) (right : Miniscript)
  | orB (left : Miniscript) (right : Miniscript)
  | older (n : Nat)
deriving DecidableEq

/-- Modelled from the spec: depth-first enumeration of the key-bearing
leaves of a policy tree (`iter_pubkeys_and_hashes` of the miniscript
collaborator), in visitation order, duplicates preserved. -/
def iterPubkeysAndHashes : Miniscript → List PubkeyOrHash
  | Miniscript.pk pubkey => [PubkeyOrHash.plainPubkey pubkey]
  | Miniscript.pkh hash => [PubkeyOrHash.hashedPubkey hash]
  | Miniscript.multi _ keys => keys.map PubkeyOrHash.plainPubkey
  | Miniscript.andB left right => iterPubkeysAndHashes left ++ iterPubkeysAndHashes right
  | Miniscript.orB left right => iterPubkeysAndHashes left ++ iterPubkeysAndHashes right
  | Miniscript.older _ => []

/-- Application of a leaf-substitution function at one plain-key leaf:
a same-shape replacement is taken, anything else leaves the leaf untouched. -/
def applyPlain (f : PubkeyOrHash → Option PubkeyOrHash) (pubkey : BitcoinPublicKey) :
    BitcoinPublicKey :=
  match f (PubkeyOrHash.plainPubkey pubkey) with
  | some (PubkeyOrHash.plainPubkey replacement) => replacement
  | _ => pubkey

/-- Application of a leaf-substitution function at one hashed-key leaf. -/
def applyHashed (f : PubkeyOrHash → Option PubkeyOrHash) (hash : Nat) : Nat :=
  match f (PubkeyOrHash.hashedPubkey hash) with
  | some (PubkeyOrHash.hashedPubkey replacement) => replacement
  | _ => hash

/-- Modelled from the spec: the leaf-level rewrite primitive of the
miniscript collaborator (`replace_pubkeys_and_hashes`): visit every
key-bearing leaf, substitute when the function yields a replacement, leave
the leaf untouched when it yields none. -/
def Miniscript.replacePubkeysAndHashes (f : PubkeyOrHash → Option PubkeyOrHash) :
    Miniscript → Miniscript
  | Miniscript.pk pubkey => Miniscript.pk (applyPlain f pubkey)
  | Miniscript.pkh hash => Miniscript.pkh (applyHashed f hash)
  | Miniscript.multi k keys => Miniscript.multi k (keys.map (applyPlain f))
  | Miniscript.andB left right =>
      Miniscript.andB (left.replacePubkeysAndHashes f) (right.replacePubkeysAndHashes f)
  | Miniscript.orB left right =>
      Miniscript.orB (left.replacePubkeysAndHashes f) (right.replacePubkeysAndHashes f)
  | Miniscript.older n => Miniscript.older n

/-- Canonical byte rendering of a list of keys inside a multisignature node
(part of the modelled miniscript encoding). -/
def encodeKeys : List BitcoinPublicKey → List Nat
  | [] => []
  | pubkey :: rest => (if pubkey.compressed then 1 else 0) :: pubkey.key :: encodeKeys rest

/-- Modelled from the spec: the script encoder of the miniscript
collaborator (`encode(tree) → bytes`), a canonical injective rendering of
the policy tree. -/
def encodeMs : Miniscript → List Nat
  | Miniscript.pk pubkey => [0, if pubkey.compressed then 1 else 0, pubkey.key]
  | Miniscript.pkh hash => [1, hash]
  | Miniscript.multi k keys => 2 :: k :: keys.length :: encodeKeys keys
  | Miniscript.andB left right => 3 :: (encodeMs left ++ encodeMs right)
  | Miniscript.orB left right => 4 :: (encodeMs left ++ encodeMs right)
  | Miniscript.older n => [5, n]

/-- Decoder for a counted list of keys (part of the modelled miniscript
decoder). -/
def decodeKeys : Nat → List Nat → Option (List BitcoinPublicKey × List Nat)
  | 0, rest => some ([], rest)
  | n + 1, 0 :: key :: rest =>
      (decodeKeys n rest).map (fun p => (BitcoinPublicKey.mk false key :: p.1, p.2))
  | n + 1, 1 :: key :: rest =>
      (decodeKeys n rest).map (fun p => (BitcoinPublicKey.mk true key :: p.1, p.2))
  | _ + 1, _ => none

/-- Fuelled recursive-descent decoder of the canonical policy-tree encoding
(part of the modelled miniscript collaborator). -/
def decodeMs : Nat → List Nat → Option (Miniscript × List Nat)
  | 0, _ => none
  | _ + 1, 0 :: 0 :: key :: rest => some (Miniscript.pk (BitcoinPublicKey.mk false key), rest)
  | _ + 1, 0 :: 1 :: key :: rest => some (Miniscript.pk (BitcoinPublicKey.mk true key), rest)
  | _ + 1, 1 :: hash :: rest => some (Miniscript.pkh hash, rest)
  | _ + 1, 2 :: k :: n :: rest =>
      match decodeKeys n rest with
      | some (keys, rest2) => some (Miniscript.multi k keys, rest2)
      | none => none
  | fuel + 1, 3 :: rest =>
      match decodeMs fuel rest with
      | some (left, rest2) =>
          match decodeMs fuel rest2 with
          | some (right, rest3) => some (Miniscript.andB left right, rest3)
          | none => none
      | none => none
  | fuel + 1, 4 :: rest =>
      match decodeMs fuel rest with
      | some (left, rest2) =>
          match decodeMs fuel rest2 with
          | some (right, rest3) => some (Miniscript.orB left right, rest3)
          | none => none
      | none => none
  | _ + 1, 5 :: n :: rest => some (Miniscript.older n, rest)
  | _ + 1, _ => none

/-- Modelled from the spec: the script parser of the miniscript collaborator
(`Miniscript::parse`, `parse(bytes) → tree or parse error`). It accepts
exactly the canonical encodings: it succeeds with tree `t` precisely when
the bytes are `encodeMs t`, matching the collaborator contract under which
the substitution-identity property of section 8 is stated. -/
def parseMs (script : List Nat) : Option Miniscript :=
  (decodeMs (script.length + 1) script).bind
    (fun p => if encodeMs p.1 = script ∧ p.2 = [] then some p.1 else none)

/-- The error type `LockScriptParseError` of `src/bp/scripts.rs`: a hashed
public key encountered during extraction (carrying the hash), or an error
propagated from the miniscript collaborator (its payload is opaque here). -/
inductive LockScriptParseError where
  | pubkeyHash (hash : Nat)
  | miniscript
deriving DecidableEq

/-- The `try_fold` loop in the body of `LockScript::extract_pubkeys`
(`src/bp/scripts.rs` lines 115 to 121): walk the leaf sequence in order,
push each plain key onto the accumulator, and stop with an error carrying
the hash at the first hashed-key leaf. -/
def tryFoldKeys : List Secp256k1PublicKey → List PubkeyOrHash →
    Except LockScriptParseError (List Secp256k1PublicKey)
  | keys, [] => Except.ok keys
  | _, PubkeyOrHash.hashedPubkey hash :: _ =>
      Except.error (LockScriptParseError.pubkeyHash hash)
  | keys, PubkeyOrHash.plainPubkey pubkey :: rest => tryFoldKeys (keys ++ [pubkey.key]) rest

/-- `LockScript::extract_pubkeys` of `src/bp/scripts.rs` (lines 112 to 122):
parse the wrapped bytes as a policy tree, then try-fold its key-bearing
leaves in depth-first order. -/
def LockScript.extract_pubkeys (self : LockScript) :
    Except LockScriptParseError (List Secp256k1PublicKey) :=
  match parseMs self.intoInner with
  | none => Except.error LockScriptParseError.miniscript
  | some ms => tryFoldKeys [] (iterPubkeysAndHashes ms)

/-- The leaf-substitution closure passed to `replace_pubkeys_and_hashes`
inside `LockScript::replace_pubkeys` (`src/bp/scripts.rs` lines 128 to 134):
on a plain-key leaf, map the secp256k1 key through the processor and, when
it yields a replacement, rebuild the leaf as a compressed public key; on a
hashed-key leaf, yield no replacement. -/
def replaceClosure (processor : Secp256k1PublicKey → Option Secp256k1PublicKey)
    (item : PubkeyOrHash) : Option PubkeyOrHash :=
  match item with
  | PubkeyOrHash.plainPubkey pubkey =>
      (processor pubkey.key).map
        (fun key => PubkeyOrHash.plainPubkey (BitcoinPublicKey.mk true key))
  | PubkeyOrHash.hashedPubkey _ => none

/-- `LockScript::replace_pubkeys` of `src/bp/scripts.rs` (lines 124 to 137):
parse the wrapped bytes, rewrite the key-bearing leaves through the closure,
re-encode the resulting tree and wrap it as a new `LockScript`. -/
def LockScript.replace_pubkeys (self : LockScript)
    (processor : Secp256k1PublicKey → Option Secp256k1PublicKey) :
    Except LockScriptParseError LockScript :=
  match parseMs self.intoInner with
  | none => Except.error LockScriptParseError.miniscript
  | some ms =>
      Except.ok (LockScript.fromInner
        (encodeMs (ms.replacePubkeysAndHashes (replaceClosure processor))))

/-- The hash carried by the first hashed-public-key leaf of a leaf sequence,
when one exists. -/
def firstHashedHash : List PubkeyOrHash → Option Nat
  | [] => none
  | PubkeyOrHash.plainPubkey _ :: rest => firstHashedHash rest
  | PubkeyOrHash.hashedPubkey hash :: _ => some hash

/-- The per-leaf substitution effect of `replace_pubkeys` as a function on
leaves: a plain key the processor maps to a replacement becomes that
replacement marked compressed; every other leaf is unchanged. -/
def substItem (processor : Secp256k1PublicKey → Option Secp256k1PublicKey)
    (item : PubkeyOrHash) : PubkeyOrHash :=
  match item with
  | PubkeyOrHash.plainPubkey pubkey =>
      match processor pubkey.key with
      | some key => PubkeyOrHash.plainPubkey (BitcoinPublicKey.mk true key)
      | none => PubkeyOrHash.plainPubkey pubkey
  | PubkeyOrHash.hashedPubkey hash => PubkeyOrHash.hashedPubkey hash

/-- Nesting depth of a policy tree, used to bound the decoder fuel. -/
def msDepth : Miniscript → Nat
  | Miniscript.andB left right => max (msDepth left) (msDepth right) + 1
  | Miniscript.orB left right => max (msDepth left) (msDepth right) + 1
  | _ => 1

@[simp]
theorem lockScript_intoInner_fromInner (s : Script) :
    (LockScript.fromInner s).intoInner = s := rfl

@[simp]
theorem pubkeyScript_intoInner_fromInner (s : Script) :
    (PubkeyScript.fromInner s).intoInner = s := rfl

theorem decodeKeys_encodeKeys (keys : List BitcoinPublicKey) (rest : List Nat) :
    decodeKeys keys.length (encodeKeys keys ++ rest) = some (keys, rest) := by
  induction keys with
  | nil => rfl
  | cons pubkey tail ih =>
      rcases pubkey with ⟨c, k⟩
      cases c <;> simp [encodeKeys, decodeKeys, ih]

theorem decodeMs_encodeMs (t : Miniscript) :
    ∀ (fuel : Nat) (rest : List Nat), msDepth t ≤ fuel →
      decodeMs fuel (encodeMs t ++ rest) = some (t, rest) := by
  induction t with
  | pk pubkey =>
      intro fuel rest h
      cases fuel with
      | zero => simp [msDepth] at h
      | succ f =>
          rcases pubkey with ⟨c, k⟩
          cases c <;> simp [encodeMs, decodeMs]
  | pkh hash =>
      intro fuel rest h
      cases fuel with
      | zero => simp [msDepth] at h
      | succ f => simp [encodeMs, decodeMs]
  | multi k keys =>
      intro fuel rest h
      cases fuel with
      | zero => simp [msDepth] at h
      | succ f => simp [encodeMs, decodeMs, decodeKeys_encodeKeys]
  | andB left right ihl ihr =>
      intro fuel rest h
      cases fuel with
      | zero => simp [msDepth] at h
      | succ f =>
          simp only [msDepth] at h
          have hstep := Nat.succ_le_succ_iff.mp h
          have hl : msDepth left ≤ f := le_trans (Nat.le_max_left _ _) hstep
          have hr : msDepth right ≤ f := le_trans (Nat.le_max_right _ _) hstep
          have e1 := ihl f (encodeMs right ++ rest) hl
          have e2 := ihr f rest hr
          simp [encodeMs, decodeMs, List.append_assoc, e1, e2]
  | orB left right ihl ihr =>
      intro fuel rest h
      cases fuel with
      | zero => simp [msDepth] at h
      | succ f =>
          simp only [msDepth] at h
          have hstep := Nat.succ_le_succ_iff.mp h
          have hl : msDepth left ≤ f := le_trans (Nat.le_max_left _ _) hstep
          have hr : msDepth right ≤ f := le_trans (Nat.le_max_right _ _) hstep
          have e1 := ihl f (encodeMs right ++ rest) hl
          have e2 := ihr f rest hr
          simp [encodeMs, decodeMs, List.append_assoc, e1, e2]
  | older n =>
      intro fuel rest h
      cases fuel with
      | zero => simp [msDepth] at h
      | succ f => simp [encodeMs, decodeMs]

theorem msDepth_le_length_encodeMs (t : Miniscript) :
    msDepth t ≤ (encodeMs t).length := by
  induction t with
  | pk pubkey => simp [msDepth, encodeMs]
  | pkh hash => simp [msDepth, encodeMs]
  | multi k keys => simp [msDepth, encodeMs]
  | andB left right ihl ihr =>
      simp only [msDepth, encodeMs, List.length_cons, List.length_append]
      exact Nat.succ_le_succ (Nat.max_le.mpr
        ⟨le_trans ihl (Nat.le_add_right _ _), le_trans ihr (Nat.le_add_left _ _)⟩)
  | orB left right ihl ihr =>
      simp only [msDepth, encodeMs, List.length_cons, List.length_append]
      exact Nat.succ_le_succ (Nat.max_le.mpr
        ⟨le_trans ihl (Nat.le_add_right _ _), le_trans ihr (Nat.le_add_left _ _)⟩)
  | older n => simp [msDepth, encodeMs]

theorem parseMs_encodeMs (t : Miniscript) : parseMs (encodeMs t) = some t := by
  have h1 : decodeMs ((encodeMs t).length + 1) (encodeMs t ++ []) = some (t, []) :=
    decodeMs_encodeMs t _ [] (le_trans (msDepth_le_length_encodeMs t) (Nat.le_succ _))
  rw [List.append_nil] at h1
  simp [parseMs, h1]

theorem parseMs_sound (script : List Nat) (ms : Miniscript)
    (h : parseMs script = some ms) : encodeMs ms = script := by
  unfold parseMs at h
  rcases hd : decodeMs (script.length + 1) script with _ | p
  · rw [hd] at h
    simp at h
  · rw [hd] at h
    simp only [Option.some_bind] at h
    split at h
    · rename_i hcond
      cases h
      exact hcond.1
    · cases h

theorem tryFoldKeys_firstHashed (items : List PubkeyOrHash) :
    ∀ (keys : List Secp256k1PublicKey) (hash : Nat),
      firstHashedHash items = some hash →
      tryFoldKeys keys items = Except.error (LockScriptParseError.pubkeyHash hash) := by
  induction items with
  | nil =>
      intro keys hash h
      simp [firstHashedHash] at h
  | cons item rest ih =>
      intro keys hash h
      cases item with
      | plainPubkey pubkey =>
          simp only [firstHashedHash] at h
          simp [tryFoldKeys, ih _ _ h]
      | hashedPubkey hash2 =>
          simp only [firstHashedHash, Option.some.injEq] at h
          subst h
          rfl

theorem tryFoldKeys_plainKeys (keys2 : List BitcoinPublicKey) :
    ∀ (keys : List Secp256k1PublicKey),
      tryFoldKeys keys (keys2.map PubkeyOrHash.plainPubkey) =
        Except.ok (keys ++ keys2.map (fun pubkey => pubkey.key)) := by
  induction keys2 with
  | nil => intro keys; simp [tryFoldKeys]
  | cons pubkey tail ih =>
      intro keys
      simp [tryFoldKeys, ih (keys ++ [pubkey.key])]

theorem applyPlain_replaceClosure
    (processor : Secp256k1PublicKey → Option Secp256k1PublicKey)
    (pubkey : BitcoinPublicKey) :
    applyPlain (replaceClosure processor) pubkey =
      match processor pubkey.key with
      | some key => BitcoinPublicKey.mk true key
      | none => pubkey := by
  cases h : processor pubkey.key <;> simp [applyPlain, replaceClosure, h]

theorem applyHashed_replaceClosure
    (processor : Secp256k1PublicKey → Option Secp256k1PublicKey) (hash : Nat) :
    applyHashed (replaceClosure processor) hash = hash := rfl

theorem replacePubkeysAndHashes_constNone (t : Miniscript) :
    t.replacePubkeysAndHashes (replaceClosure (fun _ => none)) = t := by
  have happ : applyPlain (replaceClosure (fun _ => none)) = fun pubkey => pubkey :=
    funext (fun _ => rfl)
  induction t with
  | pk pubkey => simp [Miniscript.replacePubkeysAndHashes, happ]
  | pkh hash => simp [Miniscript.replacePubkeysAndHashes, applyHashed_replaceClosure]
  | multi k keys => simp [Miniscript.replacePubkeysAndHashes, happ]
  | andB left right ihl ihr => simp [Miniscript.replacePubkeysAndHashes, ihl, ihr]
  | orB left right ihl ihr => simp [Miniscript.replacePubkeysAndHashes, ihl, ihr]
  | older n => rfl

theorem substItem_plain (processor : Secp256k1PublicKey → Option Secp256k1PublicKey)
    (pubkey : BitcoinPublicKey) :
    substItem processor (PubkeyOrHash.plainPubkey pubkey) =
      PubkeyOrHash.plainPubkey (applyPlain (replaceClosure processor) pubkey) := by
  cases h : processor pubkey.key <;>
    simp [substItem, applyPlain_replaceClosure, h]

theorem iterPubkeysAndHashes_replace
    (processor : Secp256k1PublicKey → Option Secp256k1PublicKey) (t : Miniscript) :
    iterPubkeysAndHashes (t.replacePubkeysAndHashes (replaceClosure processor)) =
      (iterPubkeysAndHashes t).map (substItem processor) := by
  induction t with
  | pk pubkey =>
      simp [Miniscript.replacePubkeysAndHashes, iterPubkeysAndHashes, substItem_plain]
  | pkh hash =>
      simp [Miniscript.replacePubkeysAndHashes, iterPubkeysAndHashes,
        applyHashed_replaceClosure, substItem]
  | multi k keys =>
      simp [Miniscript.replacePubkeysAndHashes, iterPubkeysAndHashes, List.map_map,
        Function.comp, substItem_plain]
  | andB left right ihl ihr =>
      simp [Miniscript.replacePubkeysAndHashes, iterPubkeysAndHashes, List.map_append,
        ihl, ihr]
  | orB left right ihl ihr =>
      simp [Miniscript.replacePubkeysAndHashes, iterPubkeysAndHashes, List.map_append,
        ihl, ihr]
  | older n => simp [Miniscript.replacePubkeysAndHashes, iterPubkeysAndHashes]

/-- C1 counterexample: the byte sequence produced by the canonical
pay-to-pubkey-hash template (for the zero hash) does not classify as the
`P2PKH` variant, as the claim requires; `impl From<Script> for
PubkeyScriptType` returns the fallback `P2S` variant carrying those bytes. -/
theorem lnpbp_c1_counterexample :
    pubkeyScriptTypeFromScript (genP2pkh 0) ≠ PubkeyScriptType.p2pkh 0 ∧
    pubkeyScriptTypeFromScript (genP2pkh 0) =
      PubkeyScriptType.p2s (PubkeyScript.fromInner (genP2pkh 0)) :=
  ⟨by decide, rfl⟩

/-- C1 (amended): for every raw script byte sequence, the classification
conversion `impl From<Script> for PubkeyScriptType` returns the custom
fallback variant `P2S` carrying the original bytes unchanged, regardless of
whether the bytes match any canonical template. -/
theorem lnpbp_c1_amended (script : Script) :
    pubkeyScriptTypeFromScript script =
      PubkeyScriptType.p2s (PubkeyScript.fromInner script) := rfl

/-- C2: for every candidate pre-image, every commitment, and every
collaborator hash function, the hash-verified resolution succeeds exactly
when the recomputed hash of the candidate equals the commitment; on success
the resolved content is the candidate itself, and on mismatch it fails with
the hash-mismatch error. -/
theorem lnpbp_c2 {A B : Type} [DecidableEq B] (hashFn : A → B)
    (candidate : A) (commitment : B) :
    (hashFn candidate = commitment →
      resolveHash hashFn commitment candidate = Except.ok candidate) ∧
    (hashFn candidate ≠ commitment →
      resolveHash hashFn commitment candidate =
        Except.error ResolutionError.hashMismatch) ∧
    ∀ resolved, resolveHash hashFn commitment candidate = Except.ok resolved →
      hashFn candidate = commitment ∧ resolved = candidate := by
  refine ⟨fun he => ?_, fun hne => ?_, fun resolved hr => ?_⟩
  · simp [resolveHash, he]
  · simp [resolveHash, hne]
  · by_cases h : hashFn candidate = commitment
    · simp [resolveHash, h] at hr
      exact ⟨h, hr.symm⟩
    · simp [resolveHash, h] at hr

/-- C2 witness: resolution at a concrete hash function, pre-image and
commitment, in both the matching and the mismatching case. -/
theorem lnpbp_c2_witness :
    resolveHash (fun s : Script => s.length) 2 [1, 2] = Except.ok [1, 2] ∧
    resolveHash (fun s : Script => s.length) 5 [1, 2] =
      Except.error ResolutionError.hashMismatch :=
  ⟨(lnpbp_c2 (fun s : Script => s.length) [1, 2] 2).1 rfl,
   (lnpbp_c2 (fun s : Script => s.length) [1, 2] 5).2.1 (by decide)⟩

/-- C3 counterexample: for the non-taproot variant `P2PKH 0`, generation
succeeds with the fixed template bytes, but classifying those bytes does not
reproduce the variant (classification yields the `P2S` fallback), refuting
the round-trip part of the claim. -/
theorem lnpbp_c3_counterexample :
    pubkeyScriptFromType (PubkeyScriptType.p2pkh 0) =
      GenResult.ok (PubkeyScript.fromInner (genP2pkh 0)) ∧
    pubkeyScriptTypeFromScript (genP2pkh 0) ≠ PubkeyScriptType.p2pkh 0 :=
  ⟨rfl, by decide⟩

/-- C3 (amended): for every `PubkeyScriptType` variant other than taproot,
generating the canonical bytes never fails and deterministically expands one
fixed opcode template, and classifying the generated bytes yields the
fallback `P2S` variant carrying exactly the generated bytes (equal to the
original variant only when it was itself `P2S`). -/
theorem lnpbp_c3_amended (spkt : PubkeyScriptType)
    (h : ∀ pubkey, spkt ≠ PubkeyScriptType.p2tr pubkey) :
    ∃ s, pubkeyScriptFromType spkt = GenResult.ok s ∧
      pubkeyScriptTypeFromScript s.intoInner = PubkeyScriptType.p2s s := by
  cases spkt with
  | p2s script => exact ⟨PubkeyScript.fromInner script.intoInner, rfl, rfl⟩
  | p2pk pubkey => exact ⟨PubkeyScript.fromInner (genP2pk pubkey), rfl, rfl⟩
  | p2pkh pubkeyHash => exact ⟨PubkeyScript.fromInner (genP2pkh pubkeyHash), rfl, rfl⟩
  | p2sh scriptHash => exact ⟨PubkeyScript.fromInner (genP2sh scriptHash), rfl, rfl⟩
  | p2or data => exact ⟨PubkeyScript.fromInner (genOpReturn data), rfl, rfl⟩
  | p2wpkh wpubkeyHash => exact ⟨PubkeyScript.fromInner (genV0P2wpkh wpubkeyHash), rfl, rfl⟩
  | p2wsh wscriptHash => exact ⟨PubkeyScript.fromInner (genV0P2wsh wscriptHash), rfl, rfl⟩
  | p2tr pubkey => exact absurd rfl (h pubkey)

/-- C3 witness: the amended statement at the concrete variant `P2PKH 0`. -/
theorem lnpbp_c3_witness :
    ∃ s, pubkeyScriptFromType (PubkeyScriptType.p2pkh 0) = GenResult.ok s ∧
      pubkeyScriptTypeFromScript s.intoInner = PubkeyScriptType.p2s s :=
  lnpbp_c3_amended (PubkeyScriptType.p2pkh 0) (by intro pubkey h; simp at h)

/-- C4: for every `LockScript` whose bytes parse as a policy expression,
`replace_pubkeys` with the mapping that returns no change for every key
succeeds and returns a `LockScript` byte-identical to the input. -/
theorem lnpbp_c4 (s : LockScript) (ms : Miniscript)
    (hp : parseMs s.intoInner = some ms) :
    s.replace_pubkeys (fun _ => none) = Except.ok s := by
  simp only [LockScript.replace_pubkeys, hp]
  rw [replacePubkeysAndHashes_constNone, parseMs_sound _ _ hp]
  cases s
  rfl

/-- C4 witness: the no-change substitution on the concrete parseable
lock script `[0, 1, 5]` (a single compressed-key leaf). -/
theorem lnpbp_c4_witness :
    (LockScript.fromInner [0, 1, 5]).replace_pubkeys (fun _ => none) =
      Except.ok (LockScript.fromInner [0, 1, 5]) :=
  lnpbp_c4 (LockScript.fromInner [0, 1, 5])
    (Miniscript.pk (BitcoinPublicKey.mk true 5)) (by decide)

/-- C5: for every `LockScript` whose parsed policy tree contains a
public-key-hash leaf, `extract_pubkeys` fails with the error carrying
exactly the hash of the first such leaf in depth-first order, returning no
partial key sequence. -/
theorem lnpbp_c5 (s : LockScript) (ms : Miniscript) (hash : Nat)
    (hp : parseMs s.intoInner = some ms)
    (hh : firstHashedHash (iterPubkeysAndHashes ms) = some hash) :
    s.extract_pubkeys = Except.error (LockScriptParseError.pubkeyHash hash) := by
  simp only [LockScript.extract_pubkeys, hp]
  exact tryFoldKeys_firstHashed _ _ _ hh

/-- C5 witness: extraction on the concrete script whose tree is a plain key
conjoined with the key hash `7` fails carrying exactly `7`. -/
theorem lnpbp_c5_witness :
    (LockScript.fromInner [3, 0, 1, 1, 1, 7]).extract_pubkeys =
      Except.error (LockScriptParseError.pubkeyHash 7) :=
  lnpbp_c5 (LockScript.fromInner [3, 0, 1, 1, 1, 7])
    (Miniscript.andB (Miniscript.pk (BitcoinPublicKey.mk true 1)) (Miniscript.pkh 7)) 7
    (by decide) (by decide)

/-- C6: for every lock script built as a k-of-n multisignature over plain
public keys in a given order, `extract_pubkeys` succeeds and returns exactly
the underlying secp256k1 keys in that order, duplicates preserved. -/
theorem lnpbp_c6 (k : Nat) (keys : List BitcoinPublicKey) :
    (LockScript.fromInner (encodeMs (Miniscript.multi k keys))).extract_pubkeys =
      Except.ok (keys.map (fun pubkey => pubkey.key)) := by
  simp only [LockScript.extract_pubkeys, lockScript_intoInner_fromInner, parseMs_encodeMs]
  simp [iterPubkeysAndHashes, tryFoldKeys_plainKeys]

/-- C7: for every taproot `PubkeyScriptType` value, generating canonical
bytes results in the explicit failure outcome (the `unimplemented!()` arm of
the source, which reports and aborts) and never produces script bytes. -/
theorem lnpbp_c7 (pubkey : Secp256k1PublicKey) :
    pubkeyScriptFromType (PubkeyScriptType.p2tr pubkey) = GenResult.unimplementedFailure ∧
    ∀ s, pubkeyScriptFromType (PubkeyScriptType.p2tr pubkey) ≠ GenResult.ok s := by
  refine ⟨rfl, ?_⟩
  intro s h
  simp [pubkeyScriptFromType] at h

/-- C7 witness: the taproot generation outcome at the concrete key `0`. -/
theorem lnpbp_c7_witness :
    pubkeyScriptFromType (PubkeyScriptType.p2tr 0) = GenResult.unimplementedFailure :=
  (lnpbp_c7 0).1

/-- C8: for every byte sequence and each of the six wrapper kinds, wrapping
then unwrapping returns the bytes unchanged, and unwrapping then wrapping
returns the wrapper unchanged: wrap/unwrap is a bijection on byte content. -/
theorem lnpbp_c8 (b : Script) (w1 : LockScript) (w2 : PubkeyScript) (w3 : SigScript)
    (w4 : WitnessScript) (w5 : RedeemScript) (w6 : TapScript) :
    ((LockScript.fromInner b).intoInner = b ∧
      (PubkeyScript.fromInner b).intoInner = b ∧
      (SigScript.fromInner b).intoInner = b ∧
      (WitnessScript.fromInner b).intoInner = b ∧
      (RedeemScript.fromInner b).intoInner = b ∧
      (TapScript.fromInner b).intoInner = b) ∧
    (LockScript.fromInner w1.intoInner = w1 ∧
      PubkeyScript.fromInner w2.intoInner = w2 ∧
      SigScript.fromInner w3.intoInner = w3 ∧
      WitnessScript.fromInner w4.intoInner = w4 ∧
      RedeemScript.fromInner w5.intoInner = w5 ∧
      TapScript.fromInner w6.intoInner = w6) :=
  ⟨⟨rfl, rfl, rfl, rfl, rfl, rfl⟩, ⟨rfl, rfl, rfl, rfl, rfl, rfl⟩⟩

/-- C9: classifying any byte sequence is total and deterministic: the
conversion `impl From<Script> for PubkeyScriptType` is a function with no
failure path, returning exactly one variant for each input. -/
theorem lnpbp_c9 (b : Script) : ∃! spkt, pubkeyScriptTypeFromScript b = spkt :=
  ⟨pubkeyScriptTypeFromScript b, rfl, fun _ h => h.symm⟩

/-- C9 witness: unique classification of the empty byte sequence. -/
theorem lnpbp_c9_witness : ∃! spkt, pubkeyScriptTypeFromScript [] = spkt :=
  lnpbp_c9 []

/-- C10: for every parseable `LockScript` and every mapping, the result of
`replace_pubkeys` is the re-encoded tree whose leaves are the original
leaves transformed by the substitution effect, and whenever the mapping
yields a replacement for a plain key, the rebuilt leaf carries the
replacement marked as a compressed public key, regardless of whether the
original leaf was compressed or uncompressed. -/
theorem lnpbp_c10 (s : LockScript) (ms : Miniscript)
    (processor : Secp256k1PublicKey → Option Secp256k1PublicKey)
    (hp : parseMs s.intoInner = some ms) :
    s.replace_pubkeys processor =
        Except.ok (LockScript.fromInner
          (encodeMs (ms.replacePubkeysAndHashes (replaceClosure processor)))) ∧
      iterPubkeysAndHashes (ms.replacePubkeysAndHashes (replaceClosure processor)) =
        (iterPubkeysAndHashes ms).map (substItem processor) ∧
      ∀ (pubkey : BitcoinPublicKey) (key : Secp256k1PublicKey),
        processor pubkey.key = some key →
        substItem processor (PubkeyOrHash.plainPubkey pubkey) =
          PubkeyOrHash.plainPubkey (BitcoinPublicKey.mk true key) := by
  refine ⟨?_, iterPubkeysAndHashes_replace processor ms, ?_⟩
  · simp only [LockScript.replace_pubkeys, hp]
  · intro pubkey key h
    simp [substItem, h]

/-- C10 witness: substituting through an uncompressed single-key leaf
produces the replacement key marked compressed (script `[0, 0, 3]`, an
uncompressed leaf with key `3`, becomes `[0, 1, 4]`, a compressed leaf with
key `4`). -/
theorem lnpbp_c10_witness :
    (LockScript.fromInner [0, 0, 3]).replace_pubkeys (fun key => some (key + 1)) =
      Except.ok (LockScript.fromInner [0, 1, 4]) :=
  (lnpbp_c10 (LockScript.fromInner [0, 0, 3])
    (Miniscript.pk (BitcoinPublicKey.mk false 3))
    (fun key => some (key + 1)) (by decide)).1
